import Mathlib

/-!
Verification of the RESP (Redis serialization protocol) client in
`src/main.py`: the request encoder `build_resp_command`, the recursive
response decoder `_parse`, the public entry point `parse_redis_response`,
and the receive phase of `send_redis_command`.

Modelling conventions:
* Python `bytes` values are `List Nat` (each element a byte value);
* Python `str` values are `List Nat` of Unicode code points;
* Python integers are `Int` (arbitrary precision, as in Python);
* a Python function that can raise returns `Except`;
* Python's recursion limit is modelled by a fuel argument to `_parse`
  (exhaustion plays the role of `RecursionError`, an exception).
-/

namespace RedisClient

/-- Python values produced by the decoder: `None`, `str`, `int` and `list`
(the decoder in `src/main.py` returns plain dynamic Python values, not a
tagged frame type). -/
inductive PyVal : Type
  | vNone : PyVal
  | vStr (cps : List Nat) : PyVal
  | vInt (n : Int) : PyVal
  | vList (xs : List PyVal) : PyVal
  deriving Repr

/-- Exceptions that `_parse` can raise: `ValueError` from `bytes.index`
(terminator not found), `IndexError`, `ValueError` from `int()`,
`ValueError` for an unknown marker byte, `RuntimeError` for a RESP error
frame, `UnicodeDecodeError` from `.decode('utf-8')`, and `RecursionError`. -/
inductive ParseExc : Type
  | indexNotFound : ParseExc
  | indexError : ParseExc
  | intParseError : ParseExc
  | unknownMarker (b : Nat) : ParseExc
  | redisError (msg : List Nat) : ParseExc
  | unicodeError : ParseExc
  | recursionError : ParseExc
  deriving Repr, DecidableEq

/-- Python `buffer[idx]` on bytes: a negative index counts from the end;
out of range raises `IndexError`. -/
def pyIndexByte (b : List Nat) (i : Int) : Except ParseExc Nat :=
  let j : Int := if i < 0 then i + (b.length : Int) else i
  if j < 0 then .error .indexError
  else
    match b.get? j.toNat with
    | some v => .ok v
    | none => .error .indexError

/-- Scan a byte list for the first occurrence of the two-byte terminator
`\r\n` (13, 10); `s` is the absolute index of the list's head. -/
def scanCRLF : List Nat → Nat → Option Nat
  | [], _ => none
  | [_], _ => none
  | a :: b :: rest, s =>
    if a = 13 ∧ b = 10 then some s else scanCRLF (b :: rest) (s + 1)

/-- Python `buffer.index(b'\r\n', start)`: returns the absolute index of the
first terminator at or after `start`, raising `ValueError` when absent.
A negative `start` counts from the end, clamped at 0. -/
def pyFindCRLF (b : List Nat) (start : Int) : Except ParseExc Int :=
  let s : Nat := if start < 0 then (start + (b.length : Int)).toNat else start.toNat
  match scanCRLF (b.drop s) s with
  | some k => .ok (k : Int)
  | none => .error .indexNotFound

/-- Normalize one endpoint of a Python slice `b[i:j]` over a list of
length `n`: negative values count from the end (clamped at 0), values
beyond the end are clamped to `n`. -/
def pySliceIdx (n : Nat) (i : Int) : Nat :=
  if i < 0 then (i + (n : Int)).toNat else min i.toNat n

/-- Python slice `b[i:j]` on bytes. -/
def pySlice (b : List Nat) (i j : Int) : List Nat :=
  (b.take (pySliceIdx b.length j)).drop (pySliceIdx b.length i)

/-- Whitespace stripped by Python `int()` around a numeric literal. -/
def isPyIntSpace (c : Nat) : Bool :=
  c = 32 || c = 9 || c = 10 || c = 13 || c = 11 || c = 12

/-- Strip leading and trailing `int()` whitespace. -/
def pyTrim (l : List Nat) : List Nat :=
  ((l.dropWhile isPyIntSpace).reverse.dropWhile isPyIntSpace).reverse

/-- ASCII decimal digit test. -/
def isDigit (c : Nat) : Bool := 48 ≤ c && c ≤ 57

/-- Accumulate decimal digits as Python `int()` does after the first digit:
an underscore is allowed only between two digits. -/
def pyIntDigitsGo : List Nat → Nat → Option Nat
  | [], acc => some acc
  | c :: rest, acc =>
    if isDigit c then pyIntDigitsGo rest (acc * 10 + (c - 48))
    else if c = 95 then
      match rest with
      | d :: rest2 =>
        if isDigit d then pyIntDigitsGo rest2 (acc * 10 + (d - 48)) else none
      | [] => none
    else none

/-- Parse a digit run (no sign): must be nonempty and start with a digit. -/
def pyIntDigits : List Nat → Option Nat
  | [] => none
  | c :: rest => if isDigit c then pyIntDigitsGo rest (c - 48) else none

/-- The body of Python `int(bytes)` after whitespace stripping: optional
sign, then decimal digits (with underscores allowed between digits);
anything else raises `ValueError`. -/
def pyIntOfTrimmed : List Nat → Except ParseExc Int
  | [] => .error .intParseError
  | c :: rest =>
    if c = 43 then
      match pyIntDigits rest with
      | some n => .ok (n : Int)
      | none => .error .intParseError
    else if c = 45 then
      match pyIntDigits rest with
      | some n => .ok (-(n : Int))
      | none => .error .intParseError
    else
      match pyIntDigits (c :: rest) with
      | some n => .ok (n : Int)
      | none => .error .intParseError

/-- Python `int(bytes)`: strip whitespace, optional sign, decimal digits;
anything else raises `ValueError`. -/
def pyInt (s : List Nat) : Except ParseExc Int :=
  pyIntOfTrimmed (pyTrim s)

/-- State of a strict UTF-8 decoder in the middle of a multi-byte
sequence: how many continuation bytes are still expected, the partial
code-point value, and the inclusive bounds the next byte must satisfy
(the first continuation byte after the leads E0, ED, F0, F4 has a
narrowed range, which is how a strict decoder rejects overlong forms,
surrogates and code points beyond U+10FFFF). -/
structure Utf8Pending : Type where
  need : Nat
  acc : Nat
  lo : Nat
  hi : Nat

/-- One-byte-at-a-time strict UTF-8 decoding: ASCII passes through;
leads C2-DF, E0-EF, F0-F4 open a pending sequence; continuation bytes
must land in the pending bounds; everything else (bare continuation
bytes, C0, C1, bytes above F4, or a buffer ending mid-sequence) fails,
exactly the inputs Python's strict `bytes.decode('utf-8')` rejects. -/
def utf8Run : List Nat → Option Utf8Pending → Option (List Nat)
  | [], none => some []
  | [], some _ => none
  | b :: bs, none =>
    if b ≤ 127 then (utf8Run bs none).map (b :: ·)
    else if 194 ≤ b ∧ b ≤ 223 then utf8Run bs (some ⟨1, b - 192, 128, 191⟩)
    else if 224 ≤ b ∧ b ≤ 239 then
      utf8Run bs (some ⟨2, b - 224,
        if b = 224 then 160 else 128, if b = 237 then 159 else 191⟩)
    else if 240 ≤ b ∧ b ≤ 244 then
      utf8Run bs (some ⟨3, b - 240,
        if b = 240 then 144 else 128, if b = 244 then 143 else 191⟩)
    else none
  | b :: bs, some p =>
    if p.lo ≤ b ∧ b ≤ p.hi then
      if p.need = 1 then (utf8Run bs none).map ((p.acc * 64 + (b - 128)) :: ·)
      else utf8Run bs (some ⟨p.need - 1, p.acc * 64 + (b - 128), 128, 191⟩)
    else none

/-- Strict UTF-8 decoding of a byte list into code points, as Python's
`bytes.decode('utf-8')`: `none` models `UnicodeDecodeError`. -/
def utf8Decode (l : List Nat) : Option (List Nat) := utf8Run l none

/-- UTF-8 encoding of one Unicode code point. -/
def utf8EncodeCp (c : Nat) : List Nat :=
  if c ≤ 127 then [c]
  else if c ≤ 2047 then [192 + c / 64, 128 + c % 64]
  else if c ≤ 65535 then
    [224 + c / 4096, 128 + c / 64 % 64, 128 + c % 64]
  else
    [240 + c / 262144, 128 + c / 4096 % 64, 128 + c / 64 % 64, 128 + c % 64]

/-- Python `str.encode('utf-8')` over a code-point list. -/
def utf8Encode (s : List Nat) : List Nat := (s.map utf8EncodeCp).flatten

/-- `bytes.decode('utf-8')` as used inside `_parse`: raises
`UnicodeDecodeError` on invalid UTF-8. -/
def pyDecodeUtf8 (bs : List Nat) : Except ParseExc (List Nat) :=
  match utf8Decode bs with
  | some cps => .ok cps
  | none => .error .unicodeError

/-- Decimal digits of `n` (code points, little-endian), driven by fuel so
the definition is structural; `fuel ≥ n` suffices. -/
def natDecGo : Nat → Nat → List Nat
  | 0, _ => []
  | fuel + 1, n => if n = 0 then [] else (n % 10 + 48) :: natDecGo fuel (n / 10)

/-- Decimal rendering of a natural number as Python `str(n)` /
f-string interpolation produces (most significant digit first). -/
def natDecimal (n : Nat) : List Nat :=
  if n = 0 then [48] else (natDecGo n n).reverse

/-- Python `str.upper()` on one code point, for the ASCII letters the
client's commands use (Python's Unicode table agrees with this on ASCII). -/
def pyUpperCp (c : Nat) : Nat := if 97 ≤ c ∧ c ≤ 122 then c - 32 else c

/-- The code-point rendering of one part inside `build_resp_command`'s
loop: `f"${len(str_part)}\r\n{str_part}\r\n"`. -/
def bulkRender (p : List Nat) : List Nat :=
  36 :: natDecimal p.length ++ 13 :: 10 :: p ++ [13, 10]

/-- `build_resp_command(command, *args)` from `src/main.py`: uppercases the
command, prepends it to the arguments, renders `*<count>\r\n` followed by
each part as `$<len(str)>\r\n<str>\r\n` (the length is the CHARACTER count
of the Python string), then UTF-8-encodes the whole string. -/
def build_resp_command (command : List Nat) (args : List (List Nat)) : List Nat :=
  let parts := command.map pyUpperCp :: args
  let protocol := 42 :: natDecimal parts.length ++ 13 :: 10 :: (parts.map bulkRender).flatten
  utf8Encode protocol

/-- The `for _ in range(count)` loop in `_parse`'s array branch: run the
given element parser `n` times, threading the offset, collecting elements
in order; an exception in any iteration propagates. -/
def pyParseElems (rec : List Nat → Int → Except ParseExc (PyVal × Int)) :
    Nat → List Nat → Int → Except ParseExc (List PyVal × Int)
  | 0, _, idx => .ok ([], idx)
  | n + 1, buffer, idx =>
    rec buffer idx >>= fun r =>
    pyParseElems rec n buffer r.2 >>= fun rs =>
    .ok (r.1 :: rs.1, rs.2)

/-- One unfolding of `_parse(buffer, idx)` from `src/main.py`, with `rec`
the function used for recursive calls (array elements): the length guard
returning `(None, idx)`, the marker dispatch on `+ - : $ *`, and the
unknown-marker `ValueError`. Python's `idx = end + 2` reassignments are
inlined as the expressions they stand for. -/
def parseStep (rec : List Nat → Int → Except ParseExc (PyVal × Int))
    (buffer : List Nat) (idx : Int) : Except ParseExc (PyVal × Int) :=
  if (buffer.length : Int) ≤ idx then .ok (.vNone, idx)
  else
    pyIndexByte buffer idx >>= fun marker =>
    if marker = 43 then
      pyFindCRLF buffer (idx + 1) >>= fun e =>
      pyDecodeUtf8 (pySlice buffer (idx + 1) e) >>= fun content =>
      .ok (.vStr content, e + 2)
    else if marker = 45 then
      pyFindCRLF buffer (idx + 1) >>= fun e =>
      pyDecodeUtf8 (pySlice buffer (idx + 1) e) >>= fun message =>
      .error (.redisError message)
    else if marker = 58 then
      pyFindCRLF buffer (idx + 1) >>= fun e =>
      pyInt (pySlice buffer (idx + 1) e) >>= fun num =>
      .ok (.vInt num, e + 2)
    else if marker = 36 then
      pyFindCRLF buffer (idx + 1) >>= fun e =>
      pyInt (pySlice buffer (idx + 1) e) >>= fun len =>
      if len = -1 then .ok (.vNone, e + 2)
      else
        pyDecodeUtf8 (pySlice buffer (e + 2) (e + 2 + len)) >>= fun s =>
        .ok (.vStr s, e + 2 + len + 2)
    else if marker = 42 then
      pyFindCRLF buffer (idx + 1) >>= fun e =>
      pyInt (pySlice buffer (idx + 1) e) >>= fun count =>
      pyParseElems rec count.toNat buffer (e + 2) >>= fun r =>
      .ok (.vList r.1, r.2)
    else .error (.unknownMarker marker)

/-- `_parse(buffer, idx)` from `src/main.py`, with a fuel argument
modelling Python's recursion limit (running out raises, like
`RecursionError`, and is caught the same way by the callers). -/
def _parse : Nat → List Nat → Int → Except ParseExc (PyVal × Int)
  | 0 => fun _ _ => Except.error .recursionError
  | f + 1 => parseStep (_parse f)

/-- Python's default recursion limit stands in for the call-depth bound. -/
def recursionLimit : Nat := 1000

/-- The exception `parse_redis_response` raises: every inner exception is
re-raised as `ValueError(f"解析失败: ...")`, the inner exception surviving
only inside the message text. -/
inductive TopExc : Type
  | parseFailure (inner : ParseExc) : TopExc
  deriving Repr, DecidableEq

/-- `parse_redis_response(response_buffer)` from `src/main.py` on a bytes
input: parse at offset 0, discard the final offset, and wrap any exception
as a parse failure. -/
def parse_redis_response (buffer : List Nat) : Except TopExc PyVal :=
  match _parse recursionLimit buffer 0 with
  | .ok (r, _) => .ok r
  | .error e => .error (.parseFailure e)

/-- How the receive loop of `send_redis_command` exits: `finished` when it
breaks out of the `while` (peer sent an empty chunk, or a parse consumed
the whole buffer), `starved` when the modelled chunk sequence is exhausted
while the loop still wants more data (the blocking `recv` would then hit
the socket timeout). -/
inductive LoopExit : Type
  | finished (buffer : List Nat) : LoopExit
  | starved (buffer : List Nat) : LoopExit
  deriving Repr, DecidableEq

/-- The receive loop of `send_redis_command` from `src/main.py`, driven by
the sequence of chunks that successive `sock.recv` calls return: an empty
chunk breaks out; otherwise the chunk is appended and a trial `_parse` is
run — on success with offset equal to the buffer length the loop breaks,
on any exception (bare `except`) or a shorter offset it continues. -/
def recvLoop : List (List Nat) → List Nat → LoopExit
  | [], buf => .starved buf
  | c :: rest, buf =>
    if c = [] then .finished buf
    else
      let buf2 := buf ++ c
      match _parse recursionLimit buf2 0 with
      | .ok (_, i) =>
        if i = (buf2.length : Int) then .finished buf2 else recvLoop rest buf2
      | .error _ => recvLoop rest buf2

/-- Outcome of `send_redis_command`'s receive phase: either the value of
`parse_redis_response` over the accumulated buffer (a return or a raised
`ValueError`), or the `RuntimeError("连接超时")` from a socket timeout. -/
inductive SendOutcome : Type
  | response (r : Except TopExc PyVal) : SendOutcome
  | timeoutError : SendOutcome

/-- The receive phase of `send_redis_command` from `src/main.py`: run the
accumulation loop over the chunk sequence, then hand the final buffer to
`parse_redis_response`; an exhausted chunk sequence is a socket timeout. -/
def send_redis_command (chunks : List (List Nat)) : SendOutcome :=
  match recvLoop chunks [] with
  | .finished buf => .response (parse_redis_response buf)
  | .starved _ => .timeoutError

/-- A byte run containing no adjacent `13, 10` pair: the terminator
search scans past such a run. -/
def crlfFree : List Nat → Bool
  | [] => true
  | [_] => true
  | a :: b :: rest => if a = 13 ∧ b = 10 then false else crlfFree (b :: rest)

/-- Value of a little-endian decimal digit list (code points 48-57). -/
def valLE : List Nat → Nat
  | [] => 0
  | d :: r => (d - 48) + 10 * valLE r

/-- Printable ASCII text, the "printable text" the spec's round-trip
property quantifies over: every code point is in 32..126 (so it is
one-byte UTF-8 and contains neither CR nor LF). -/
abbrev asciiPrintable (l : List Nat) : Prop := ∀ c ∈ l, 32 ≤ c ∧ c ≤ 126

theorem ebind_ok {ε α β : Type} (a : α) (g : α → Except ε β) :
    ((Except.ok a : Except ε α) >>= g) = g a := rfl

theorem ebind_error {ε α β : Type} (e : ε) (g : α → Except ε β) :
    ((Except.error e : Except ε α) >>= g) = .error e := rfl

/-- The terminator scan over `l ++ \r\n ++ rest` finds the appended
terminator first when `l` itself contains none. -/
theorem scanCRLF_append (l : List Nat) :
    ∀ (rest : List Nat) (s : Nat), crlfFree l = true →
      scanCRLF (l ++ 13 :: 10 :: rest) s = some (s + l.length) := by
  induction l with
  | nil => intro rest s _; simp [scanCRLF]
  | cons a l ih =>
    intro rest s h
    cases l with
    | nil =>
      simp only [List.cons_append, List.nil_append, scanCRLF]
      rw [if_neg (fun hh => absurd hh.2 (by decide))]
      simp [scanCRLF]
    | cons b l2 =>
      by_cases hab : a = 13 ∧ b = 10
      · simp [crlfFree, hab] at h
      · have h2 : crlfFree (b :: l2) = true := by
          have := h
          simp only [crlfFree, if_neg hab] at this
          exact this
        have hrec := ih rest (s + 1) h2
        simp only [List.cons_append] at hrec ⊢
        simp only [scanCRLF, if_neg hab, hrec, Option.some.injEq, List.length_cons]
        omega

/-- A list whose bytes are never CR contains no terminator pair. -/
theorem crlfFree_of_no_cr (l : List Nat) (h : ∀ d ∈ l, d ≠ 13) :
    crlfFree l = true := by
  induction l with
  | nil => rfl
  | cons a t ih =>
    cases t with
    | nil => rfl
    | cons b t2 =>
      have hne : ¬ (a = 13 ∧ b = 10) := fun hh => h a (by simp) hh.1
      simp only [crlfFree, if_neg hne]
      exact ih (fun d hd => h d (List.mem_cons_of_mem a hd))

theorem natDecGo_digits (fuel : Nat) :
    ∀ n d, d ∈ natDecGo fuel n → 48 ≤ d ∧ d ≤ 57 := by
  induction fuel with
  | zero => intro n d hd; simp [natDecGo] at hd
  | succ f ih =>
    intro n d hd
    by_cases hn : n = 0
    · simp [natDecGo, hn] at hd
    · simp only [natDecGo, if_neg hn, List.mem_cons] at hd
      rcases hd with h1 | h2
      · omega
      · exact ih _ _ h2

theorem natDecimal_digits (n : Nat) : ∀ d ∈ natDecimal n, 48 ≤ d ∧ d ≤ 57 := by
  intro d hd
  unfold natDecimal at hd
  by_cases hn : n = 0
  · simp [hn] at hd; omega
  · rw [if_neg hn, List.mem_reverse] at hd
    exact natDecGo_digits n n d hd

theorem natDecimal_crlfFree (n : Nat) : crlfFree (natDecimal n) = true :=
  crlfFree_of_no_cr _ (fun d hd => by have := natDecimal_digits n d hd; omega)

theorem natDecGo_val (fuel : Nat) :
    ∀ n, n ≤ fuel → valLE (natDecGo fuel n) = n := by
  induction fuel with
  | zero => intro n h; have : n = 0 := by omega
            simp [this, natDecGo, valLE]
  | succ f ih =>
    intro n h
    by_cases hn : n = 0
    · simp [natDecGo, hn, valLE]
    · have h10 : n / 10 ≤ f := by omega
      simp only [natDecGo, if_neg hn, valLE, ih _ h10]
      omega

theorem foldl_reverse_digits (l : List Nat) :
    ∀ acc : Nat,
      l.reverse.foldl (fun a d => a * 10 + (d - 48)) acc =
        acc * 10 ^ l.length + valLE l := by
  induction l with
  | nil => intro acc; simp [valLE]
  | cons d r ih =>
    intro acc
    simp only [List.reverse_cons, List.foldl_append, List.foldl_cons,
      List.foldl_nil, ih, valLE, List.length_cons]
    rw [pow_succ, ← mul_assoc]
    generalize acc * 10 ^ r.length = X
    omega

theorem pyIntDigitsGo_digits :
    ∀ (l : List Nat) (acc : Nat), (∀ d ∈ l, isDigit d = true) →
      pyIntDigitsGo l acc = some (l.foldl (fun a d => a * 10 + (d - 48)) acc) := by
  intro l
  induction l with
  | nil => intro acc _; rfl
  | cons c rest ih =>
    intro acc h
    have hc : isDigit c = true := h c (by simp)
    have ih2 := ih (acc * 10 + (c - 48)) (fun d hd => h d (List.mem_cons_of_mem c hd))
    rw [pyIntDigitsGo.eq_def]
    simp [hc, ih2]

theorem pyIntDigits_digits (l : List Nat) (hne : l ≠ [])
    (h : ∀ d ∈ l, isDigit d = true) :
    pyIntDigits l = some (l.foldl (fun a d => a * 10 + (d - 48)) 0) := by
  cases l with
  | nil => exact absurd rfl hne
  | cons c rest =>
    have hc : isDigit c = true := h c (by simp)
    simp only [pyIntDigits, if_pos hc, List.foldl_cons,
      pyIntDigitsGo_digits rest _ (fun d hd => h d (List.mem_cons_of_mem c hd))]
    norm_num

theorem dropWhile_eq_self_of (l : List Nat)
    (h : ∀ d ∈ l, isPyIntSpace d = false) :
    l.dropWhile isPyIntSpace = l := by
  cases l with
  | nil => rfl
  | cons c rest => simp [List.dropWhile_cons, h c (by simp)]

theorem pyTrim_eq_self (l : List Nat)
    (h : ∀ d ∈ l, isPyIntSpace d = false) : pyTrim l = l := by
  unfold pyTrim
  rw [dropWhile_eq_self_of l h,
    dropWhile_eq_self_of _ (fun d hd => h d (List.mem_reverse.mp hd)),
    List.reverse_reverse]

theorem natDecimal_ne_nil (n : Nat) : natDecimal n ≠ [] := by
  unfold natDecimal
  by_cases hn : n = 0
  · simp [hn]
  · rw [if_neg hn]
    cases n with
    | zero => exact absurd rfl hn
    | succ m =>
      simp only [natDecGo, if_neg hn]
      simp

/-- Python `int()` inverts the decimal rendering of a natural number. -/
theorem pyInt_natDecimal (n : Nat) : pyInt (natDecimal n) = .ok (n : Int) := by
  have hdig := natDecimal_digits n
  have htrim : pyTrim (natDecimal n) = natDecimal n := by
    refine pyTrim_eq_self _ (fun d hd => ?_)
    have := hdig d hd
    simp only [isPyIntSpace, Bool.or_eq_false_iff, decide_eq_false_iff_not]
    omega
  have hval : (natDecimal n).foldl (fun a d => a * 10 + (d - 48)) 0 = n := by
    unfold natDecimal
    by_cases hn : n = 0
    · simp [hn, List.foldl_cons]
    · rw [if_neg hn, foldl_reverse_digits, natDecGo_val n n (le_refl n)]
      simp
  have hds : pyIntDigits (natDecimal n) = some n := by
    rw [pyIntDigits_digits _ (natDecimal_ne_nil n)
      (fun d hd => by
        have := hdig d hd
        simp only [isDigit, Bool.and_eq_true, decide_eq_true_eq]
        omega), hval]
  obtain ⟨c, cs, hc⟩ : ∃ c cs, natDecimal n = c :: cs := by
    cases hnd : natDecimal n with
    | nil => exact absurd hnd (natDecimal_ne_nil n)
    | cons c cs => exact ⟨c, cs, rfl⟩
  have hcd : 48 ≤ c ∧ c ≤ 57 := hdig c (by rw [hc]; simp)
  rw [hc] at hds
  unfold pyInt
  rw [htrim, hc]
  simp only [pyIntOfTrimmed, if_neg (by omega : ¬ c = 43),
    if_neg (by omega : ¬ c = 45), hds]

/-- UTF-8 encoding is the identity on ASCII text. -/
theorem utf8Encode_ascii (l : List Nat) (h : ∀ c ∈ l, c ≤ 127) :
    utf8Encode l = l := by
  induction l with
  | nil => rfl
  | cons c rest ih =>
    have hc : c ≤ 127 := h c (by simp)
    have ih2 := ih (fun d hd => h d (List.mem_cons_of_mem c hd))
    show utf8EncodeCp c ++ utf8Encode rest = c :: rest
    rw [ih2, show utf8EncodeCp c = [c] from by simp [utf8EncodeCp, hc]]
    rfl

/-- Strict UTF-8 decoding is the identity on ASCII byte runs. -/
theorem utf8Decode_ascii (l : List Nat) (h : ∀ c ∈ l, c ≤ 127) :
    utf8Decode l = some l := by
  induction l with
  | nil => rfl
  | cons c rest ih =>
    have hc : c ≤ 127 := h c (by simp)
    have ih2 := ih (fun d hd => h d (List.mem_cons_of_mem c hd))
    unfold utf8Decode at ih2 ⊢
    simp [utf8Run, hc, ih2]

/-- Printable ASCII text is one-byte text. -/
theorem asciiPrintable_le (l : List Nat) (h : asciiPrintable l) :
    ∀ c ∈ l, c ≤ 127 := fun c hc => by have := h c hc; omega

/-- Printable ASCII text contains no CR, hence no terminator pair. -/
theorem asciiPrintable_crlfFree (l : List Nat) (h : asciiPrintable l) :
    crlfFree l = true :=
  crlfFree_of_no_cr l (fun d hd => by have := h d hd; omega)

/-- Reading the byte just after a known-length context. -/
theorem pyIndexByte_at (pre : List Nat) (x : Nat) (rest : List Nat) :
    pyIndexByte (pre ++ x :: rest) (pre.length : Int) = .ok x := by
  have h0 : ¬ ((pre.length : Int) < 0) := by omega
  have hget : (pre ++ x :: rest).get? pre.length = some x := by
    rw [List.get?_append_right (Nat.le_refl _)]
    simp
  simp only [pyIndexByte, h0, if_false, Int.toNat_natCast]
  rw [hget]

/-- The terminator search starting right after a known-length context
finds the terminator that follows a terminator-free middle section. -/
theorem pyFindCRLF_at (pre mid rest : List Nat) (hmid : crlfFree mid = true) :
    pyFindCRLF (pre ++ mid ++ 13 :: 10 :: rest) (pre.length : Int) =
      .ok (((pre.length + mid.length : Nat)) : Int) := by
  have h0 : ¬ ((pre.length : Int) < 0) := by omega
  have hdrop : (pre ++ mid ++ 13 :: 10 :: rest).drop pre.length =
      mid ++ 13 :: 10 :: rest := by
    rw [List.append_assoc]
    exact List.drop_left pre _
  simp [pyFindCRLF, h0, hdrop, scanCRLF_append mid rest pre.length hmid]

theorem pySliceIdx_natCast (n a : Nat) : pySliceIdx n (a : Int) = min a n := by
  simp [pySliceIdx]

/-- Clamping the take bound at the list length does not change `take`. -/
theorem take_min_length (l : List Nat) (x : Nat) :
    l.take (min x l.length) = l.take x := by
  rcases le_total x l.length with h | h
  · rw [min_eq_left h]
  · rw [min_eq_right h, List.take_length, List.take_of_length_le h]

/-- A Python slice that spans exactly a middle section extracts it. -/
theorem pySlice_middle (pre mid rest : List Nat) :
    pySlice (pre ++ mid ++ rest) (pre.length : Int)
      (((pre.length + mid.length : Nat)) : Int) = mid := by
  unfold pySlice
  rw [pySliceIdx_natCast, pySliceIdx_natCast]
  have hlo : min pre.length (pre ++ mid ++ rest).length = pre.length := by
    simp only [List.length_append]
    omega
  have hhi : min (pre.length + mid.length) (pre ++ mid ++ rest).length =
      pre.length + mid.length := by
    simp only [List.length_append]
    omega
  rw [hhi, hlo]
  have h3 : (pre ++ mid ++ rest).take (pre.length + mid.length) = pre ++ mid := by
    rw [← List.length_append pre mid]
    exact List.take_left (pre ++ mid) rest
  rw [h3, List.drop_left]

/-- A Python slice starting right after a known context and spanning `L`
bytes extracts at most the first `L` bytes of what follows, silently
truncated when fewer remain. -/
theorem pySlice_suffix (pre body : List Nat) (L : Nat) :
    pySlice (pre ++ body) (pre.length : Int) ((pre.length : Int) + (L : Int)) =
      body.take L := by
  have hcast : (pre.length : Int) + (L : Int) = ((pre.length + L : Nat) : Int) := by
    push_cast
    ring
  unfold pySlice
  rw [hcast, pySliceIdx_natCast, pySliceIdx_natCast]
  have hlo : min pre.length (pre ++ body).length = pre.length := by
    simp only [List.length_append]
    omega
  have hhi : min (pre.length + L) (pre ++ body).length =
      pre.length + min L body.length := by
    simp only [List.length_append]
    omega
  rw [hlo, hhi]
  have htake : (pre ++ body).take (pre.length + min L body.length) =
      pre ++ body.take (min L body.length) := by
    simp [List.take_append_eq_append_take]
  rw [htake, List.drop_left, take_min_length]

/-- Decoding a rendered bulk-string element embedded at a known offset
consumes the marker, the decimal length, its terminator, exactly the
declared payload and the trailing terminator. -/
theorem parse_bulk_at (f : Nat) (pre p rest : List Nat) (hp : asciiPrintable p) :
    _parse (f + 1) (pre ++ bulkRender p ++ rest) (pre.length : Int) =
      .ok (.vStr p, ((pre.length + (bulkRender p).length : Nat) : Int)) := by
  have hpa : ∀ c ∈ p, c ≤ 127 := asciiPrintable_le p hp
  have hshape1 : pre ++ bulkRender p ++ rest =
      pre ++ 36 :: (natDecimal p.length ++ 13 :: 10 :: (p ++ 13 :: 10 :: rest)) := by
    simp [bulkRender]
  have hshape2 : pre ++ bulkRender p ++ rest =
      (pre ++ [36]) ++ natDecimal p.length ++ 13 :: 10 :: (p ++ 13 :: 10 :: rest) := by
    simp [bulkRender]
  have hshape3 : pre ++ bulkRender p ++ rest =
      (pre ++ 36 :: natDecimal p.length ++ [13, 10]) ++ p ++ 13 :: 10 :: rest := by
    simp [bulkRender]
  have hbl : (bulkRender p).length =
      1 + (natDecimal p.length).length + 2 + p.length + 2 := by
    simp [bulkRender]
    omega
  have hlen : ¬ (((pre ++ bulkRender p ++ rest).length : Int) ≤ (pre.length : Int)) := by
    simp only [List.length_append]
    push_cast
    omega
  have hidx : pyIndexByte (pre ++ bulkRender p ++ rest) (pre.length : Int) = .ok 36 := by
    rw [hshape1]
    exact pyIndexByte_at pre 36 _
  have e1 : ((pre ++ [36]).length : Int) = (pre.length : Int) + 1 := by
    simp only [List.length_append, List.length_cons, List.length_nil]
    push_cast
    ring
  have e2 : (pre ++ [36]).length + (natDecimal p.length).length =
      pre.length + 1 + (natDecimal p.length).length := by
    simp
  have hfind : pyFindCRLF (pre ++ bulkRender p ++ rest) ((pre.length : Int) + 1) =
      .ok (((pre.length + 1 + (natDecimal p.length).length : Nat)) : Int) := by
    have h := pyFindCRLF_at (pre ++ [36]) (natDecimal p.length)
      (p ++ 13 :: 10 :: rest) (natDecimal_crlfFree _)
    rw [e1, e2] at h
    rw [hshape2]
    exact h
  have hslice1 : pySlice (pre ++ bulkRender p ++ rest) ((pre.length : Int) + 1)
      (((pre.length + 1 + (natDecimal p.length).length : Nat)) : Int) =
      natDecimal p.length := by
    have h := pySlice_middle (pre ++ [36]) (natDecimal p.length)
      (13 :: 10 :: (p ++ 13 :: 10 :: rest))
    rw [e1, e2] at h
    rw [hshape2]
    exact h
  have hneg : ¬ ((p.length : Int) = -1) := by omega
  have e3 : ((pre ++ 36 :: natDecimal p.length ++ [13, 10]).length : Int) =
      (((pre.length + 1 + (natDecimal p.length).length : Nat)) : Int) + 2 := by
    simp only [List.length_append, List.length_cons, List.length_nil]
    push_cast
    ring
  have e4 : (pre ++ 36 :: natDecimal p.length ++ [13, 10]).length + p.length =
      pre.length + 1 + (natDecimal p.length).length + 2 + p.length := by
    simp
    omega
  have e5 : ((((pre.length + 1 + (natDecimal p.length).length : Nat)) : Int) + 2 +
      (p.length : Int)) =
      (((pre.length + 1 + (natDecimal p.length).length + 2 + p.length : Nat)) : Int) := by
    push_cast
    ring
  have hslice2 : pySlice (pre ++ bulkRender p ++ rest)
      ((((pre.length + 1 + (natDecimal p.length).length : Nat)) : Int) + 2)
      ((((pre.length + 1 + (natDecimal p.length).length : Nat)) : Int) + 2 +
        (p.length : Int)) = p := by
    have h := pySlice_middle (pre ++ 36 :: natDecimal p.length ++ [13, 10]) p
      (13 :: 10 :: rest)
    rw [e3, e4] at h
    rw [e5, hshape3]
    exact h
  have hdec : pyDecodeUtf8 p = .ok p := by
    simp [pyDecodeUtf8, utf8Decode_ascii p hpa]
  rw [show _parse (f + 1) = parseStep (_parse f) from rfl]
  unfold parseStep
  rw [if_neg hlen, hidx]
  simp only [ebind_ok, hfind, hslice1, pyInt_natDecimal, hslice2, hdec]
  norm_num
  rw [if_neg hneg]
  refine congrArg Except.ok ?_
  rw [Prod.mk.injEq]
  refine ⟨rfl, ?_⟩
  rw [hbl]
  push_cast
  ring

/-- The array element loop over a concatenation of rendered bulk-string
elements threads the offset left to right and collects every element. -/
theorem parse_elems_at (f : Nat) :
    ∀ (parts : List (List Nat)) (pre rest : List Nat),
      (∀ q ∈ parts, asciiPrintable q) →
      pyParseElems (_parse (f + 1)) parts.length
          (pre ++ (parts.map bulkRender).flatten ++ rest) (pre.length : Int) =
        .ok (parts.map PyVal.vStr,
          ((pre.length + ((parts.map bulkRender).flatten).length : Nat) : Int)) := by
  intro parts
  induction parts with
  | nil =>
    intro pre rest h
    simp [pyParseElems]
  | cons q qs ih =>
    intro pre rest h
    have hq : asciiPrintable q := h q (by simp)
    have hbufeq : pre ++ ((q :: qs).map bulkRender).flatten ++ rest =
        pre ++ bulkRender q ++ ((qs.map bulkRender).flatten ++ rest) := by
      simp [List.append_assoc]
    have h1 := parse_bulk_at f pre q ((qs.map bulkRender).flatten ++ rest) hq
    have ih2 := ih (pre ++ bulkRender q) rest
      (fun r hr => h r (List.mem_cons_of_mem q hr))
    simp only [List.append_assoc, List.length_append] at ih2
    simp only [List.length_cons, pyParseElems]
    rw [hbufeq]
    simp only [List.append_assoc] at h1 ⊢
    rw [h1]
    simp only [ebind_ok]
    rw [ih2]
    simp only [ebind_ok]
    refine congrArg Except.ok ?_
    rw [Prod.mk.injEq]
    constructor
    · simp
    · simp only [List.map_cons, List.flatten_cons, List.length_append]
      push_cast
      ring

/-- Decoding an array header followed by rendered bulk-string elements:
the `*` marker, the decimal count and its terminator are consumed, then
the element loop runs exactly `count` times. -/
theorem parse_array_at (f : Nat) (pre : List Nat) (parts : List (List Nat))
    (rest : List Nat) (hparts : ∀ q ∈ parts, asciiPrintable q) :
    _parse (f + 2)
        (pre ++ 42 :: natDecimal parts.length ++ 13 :: 10 ::
          ((parts.map bulkRender).flatten ++ rest)) (pre.length : Int) =
      .ok (.vList (parts.map PyVal.vStr),
        ((pre.length + 1 + (natDecimal parts.length).length + 2 +
          ((parts.map bulkRender).flatten).length : Nat) : Int)) := by
  have hlen : ¬ (((pre ++ 42 :: natDecimal parts.length ++ 13 :: 10 ::
      ((parts.map bulkRender).flatten ++ rest)).length : Int) ≤ (pre.length : Int)) := by
    simp only [List.length_append, List.length_cons]
    push_cast
    omega
  have hshape1 : pre ++ 42 :: natDecimal parts.length ++ 13 :: 10 ::
      ((parts.map bulkRender).flatten ++ rest) =
      pre ++ 42 :: (natDecimal parts.length ++ 13 :: 10 ::
        ((parts.map bulkRender).flatten ++ rest)) := by
    simp
  have hidx : pyIndexByte (pre ++ 42 :: natDecimal parts.length ++ 13 :: 10 ::
      ((parts.map bulkRender).flatten ++ rest)) (pre.length : Int) = .ok 42 := by
    rw [hshape1]
    exact pyIndexByte_at pre 42 _
  have e1 : ((pre ++ [42]).length : Int) = (pre.length : Int) + 1 := by
    simp only [List.length_append, List.length_cons, List.length_nil]
    push_cast
    ring
  have e2 : (pre ++ [42]).length + (natDecimal parts.length).length =
      pre.length + 1 + (natDecimal parts.length).length := by
    simp
  have hshape2 : pre ++ 42 :: natDecimal parts.length ++ 13 :: 10 ::
      ((parts.map bulkRender).flatten ++ rest) =
      (pre ++ [42]) ++ natDecimal parts.length ++ 13 :: 10 ::
        ((parts.map bulkRender).flatten ++ rest) := by
    simp
  have hfind : pyFindCRLF (pre ++ 42 :: natDecimal parts.length ++ 13 :: 10 ::
      ((parts.map bulkRender).flatten ++ rest)) ((pre.length : Int) + 1) =
      .ok (((pre.length + 1 + (natDecimal parts.length).length : Nat)) : Int) := by
    have h := pyFindCRLF_at (pre ++ [42]) (natDecimal parts.length)
      ((parts.map bulkRender).flatten ++ rest) (natDecimal_crlfFree _)
    rw [e1, e2] at h
    rw [hshape2]
    exact h
  have hslice : pySlice (pre ++ 42 :: natDecimal parts.length ++ 13 :: 10 ::
      ((parts.map bulkRender).flatten ++ rest)) ((pre.length : Int) + 1)
      (((pre.length + 1 + (natDecimal parts.length).length : Nat)) : Int) =
      natDecimal parts.length := by
    have h := pySlice_middle (pre ++ [42]) (natDecimal parts.length)
      (13 :: 10 :: ((parts.map bulkRender).flatten ++ rest))
    rw [e1, e2] at h
    rw [hshape2]
    exact h
  have e3 : ((pre ++ 42 :: natDecimal parts.length ++ [13, 10]).length : Nat) =
      pre.length + 1 + (natDecimal parts.length).length + 2 := by
    simp only [List.length_append, List.length_cons, List.length_nil]
    omega
  have hshape3 : pre ++ 42 :: natDecimal parts.length ++ 13 :: 10 ::
      ((parts.map bulkRender).flatten ++ rest) =
      (pre ++ 42 :: natDecimal parts.length ++ [13, 10]) ++
        (parts.map bulkRender).flatten ++ rest := by
    simp
  have helems : pyParseElems (_parse (f + 1)) parts.length
      (pre ++ 42 :: natDecimal parts.length ++ 13 :: 10 ::
        ((parts.map bulkRender).flatten ++ rest))
      ((((pre.length + 1 + (natDecimal parts.length).length : Nat)) : Int) + 2) =
      .ok (parts.map PyVal.vStr,
        ((pre.length + 1 + (natDecimal parts.length).length + 2 +
          ((parts.map bulkRender).flatten).length : Nat) : Int)) := by
    have h := parse_elems_at f parts (pre ++ 42 :: natDecimal parts.length ++ [13, 10])
      rest hparts
    rw [e3] at h
    rw [show (((pre.length + 1 + (natDecimal parts.length).length : Nat)) : Int) + 2 =
        (((pre.length + 1 + (natDecimal parts.length).length + 2 : Nat)) : Int) from by
        push_cast
        ring]
    rw [hshape3]
    exact h
  rw [show _parse (f + 2) = parseStep (_parse (f + 1)) from rfl]
  unfold parseStep
  rw [if_neg hlen, hidx]
  simp only [ebind_ok, hfind, hslice, pyInt_natDecimal, Int.toNat_natCast, helems]
  norm_num

/-- C3 amended: for every command and argument list of printable ASCII
text, decoding the encoder's output yields an array of bulk strings
equal to `[command.upper()] + args` — the arguments byte-exact (empty
strings included), the command uppercased by the encoder — and the
decode consumes the buffer exactly. -/
theorem c3_roundtrip_uppercased (command : List Nat) (args : List (List Nat))
    (hc : asciiPrintable command) (ha : ∀ a ∈ args, asciiPrintable a) :
    parse_redis_response (build_resp_command command args) =
      .ok (.vList ((command.map pyUpperCp :: args).map PyVal.vStr)) ∧
    _parse recursionLimit (build_resp_command command args) 0 =
      .ok (.vList ((command.map pyUpperCp :: args).map PyVal.vStr),
        ((build_resp_command command args).length : Int)) := by
  have hup : asciiPrintable (command.map pyUpperCp) := by
    intro c hc2
    rcases List.mem_map.mp hc2 with ⟨d, hd, rfl⟩
    have := hc d hd
    unfold pyUpperCp
    by_cases h97 : 97 ≤ d ∧ d ≤ 122
    · rw [if_pos h97]
      omega
    · rw [if_neg h97]
      omega
  have hparts : ∀ q ∈ (command.map pyUpperCp :: args), asciiPrintable q := by
    intro q hq
    rcases List.mem_cons.mp hq with h | h
    · rw [h]
      exact hup
    · exact ha q h
  have hflat_ascii :
      ∀ c ∈ ((command.map pyUpperCp :: args).map bulkRender).flatten, c ≤ 127 := by
    intro c hc2
    rcases List.mem_flatten.mp hc2 with ⟨l, hl, hcl⟩
    rcases List.mem_map.mp hl with ⟨q, hq, rfl⟩
    have hq2 := hparts q hq
    have hsplit : c = 36 ∨ c ∈ natDecimal q.length ∨ c = 13 ∨ c = 10 ∨ c ∈ q := by
      simp [bulkRender] at hcl
      tauto
    rcases hsplit with rfl | h | rfl | rfl | h
    · omega
    · have := natDecimal_digits _ _ h
      omega
    · omega
    · omega
    · have := hq2 c h
      omega
  have hproto : ∀ c ∈ (42 :: natDecimal (command.map pyUpperCp :: args).length ++
      13 :: 10 :: ((command.map pyUpperCp :: args).map bulkRender).flatten),
      c ≤ 127 := by
    intro c hc2
    simp only [List.mem_append, List.mem_cons] at hc2
    rcases hc2 with (rfl | h) | (rfl | rfl | h)
    · omega
    · have := natDecimal_digits _ _ h
      omega
    · omega
    · omega
    · exact hflat_ascii c h
  have hbuild : build_resp_command command args =
      42 :: natDecimal (command.map pyUpperCp :: args).length ++
        13 :: 10 :: ((command.map pyUpperCp :: args).map bulkRender).flatten := by
    simp only [build_resp_command]
    exact utf8Encode_ascii _ hproto
  have hlen2 : (build_resp_command command args).length =
      1 + (natDecimal (command.map pyUpperCp :: args).length).length + 2 +
        (((command.map pyUpperCp :: args).map bulkRender).flatten).length := by
    rw [hbuild]
    simp only [List.length_append, List.length_cons]
    omega
  have hparse : _parse recursionLimit (build_resp_command command args) 0 =
      .ok (.vList ((command.map pyUpperCp :: args).map PyVal.vStr),
        ((build_resp_command command args).length : Int)) := by
    have h := parse_array_at 998 [] (command.map pyUpperCp :: args) [] hparts
    simp only [List.nil_append, List.append_nil, List.length_nil, Nat.cast_zero,
      Nat.zero_add] at h
    rw [hlen2, hbuild]
    rw [show recursionLimit = 998 + 2 from by norm_num [recursionLimit]]
    exact h
  refine ⟨?_, hparse⟩
  unfold parse_redis_response
  rw [hparse]

/-- C3 witness: encoding command `get` with argument `key` and decoding
the result yields `["GET", "key"]`. -/
theorem c3_roundtrip_uppercased_witness :
    parse_redis_response (build_resp_command [103, 101, 116] [[107, 101, 121]]) =
      .ok (.vList [.vStr [71, 69, 84], .vStr [107, 101, 121]]) :=
  (c3_roundtrip_uppercased [103, 101, 116] [[107, 101, 121]]
    (by decide) (by decide)).1

/-- Decoding a simple-string frame at offset 0 reduces to UTF-8-decoding
the text between the marker and the first terminator. -/
theorem parse_simple_at0 (p rest : List Nat) (f : Nat) (hfree : crlfFree p = true) :
    _parse (f + 1) (43 :: (p ++ 13 :: 10 :: rest)) 0 =
      pyDecodeUtf8 p >>= fun content =>
        .ok (.vStr content, (((1 + p.length : Nat)) : Int) + 2) := by
  have hshape : (43 :: (p ++ 13 :: 10 :: rest)) = [43] ++ p ++ 13 :: 10 :: rest := by
    simp
  have hlen : ¬ (((43 :: (p ++ 13 :: 10 :: rest)).length : Int) ≤ (0 : Int)) := by
    simp only [List.length_cons]
    push_cast
    omega
  have hidx : pyIndexByte (43 :: (p ++ 13 :: 10 :: rest)) 0 = .ok 43 := rfl
  have e1 : ((([43] : List Nat)).length : Int) = (0 : Int) + 1 := by simp
  have e2 : ([43] : List Nat).length + p.length = 1 + p.length := by simp
  have hfind : pyFindCRLF (43 :: (p ++ 13 :: 10 :: rest)) ((0 : Int) + 1) =
      .ok (((1 + p.length : Nat)) : Int) := by
    have h := pyFindCRLF_at [43] p rest hfree
    rw [e1, e2] at h
    rw [hshape]
    exact h
  have hslice : pySlice (43 :: (p ++ 13 :: 10 :: rest)) ((0 : Int) + 1)
      (((1 + p.length : Nat)) : Int) = p := by
    have h := pySlice_middle [43] p (13 :: 10 :: rest)
    rw [e1, e2] at h
    rw [hshape]
    exact h
  rw [show _parse (f + 1) = parseStep (_parse f) from rfl]
  unfold parseStep
  rw [if_neg hlen, hidx]
  simp only [ebind_ok, hfind, hslice]
  norm_num

/-- Decoding an error frame at offset 0: the text is UTF-8-decoded and
then a `RuntimeError` is raised — the frame never becomes a value. -/
theorem parse_error_at0 (p rest : List Nat) (f : Nat) (hfree : crlfFree p = true) :
    _parse (f + 1) (45 :: (p ++ 13 :: 10 :: rest)) 0 =
      pyDecodeUtf8 p >>= fun message => .error (.redisError message) := by
  have hshape : (45 :: (p ++ 13 :: 10 :: rest)) = [45] ++ p ++ 13 :: 10 :: rest := by
    simp
  have hlen : ¬ (((45 :: (p ++ 13 :: 10 :: rest)).length : Int) ≤ (0 : Int)) := by
    simp only [List.length_cons]
    push_cast
    omega
  have hidx : pyIndexByte (45 :: (p ++ 13 :: 10 :: rest)) 0 = .ok 45 := rfl
  have e1 : ((([45] : List Nat)).length : Int) = (0 : Int) + 1 := by simp
  have e2 : ([45] : List Nat).length + p.length = 1 + p.length := by simp
  have hfind : pyFindCRLF (45 :: (p ++ 13 :: 10 :: rest)) ((0 : Int) + 1) =
      .ok (((1 + p.length : Nat)) : Int) := by
    have h := pyFindCRLF_at [45] p rest hfree
    rw [e1, e2] at h
    rw [hshape]
    exact h
  have hslice : pySlice (45 :: (p ++ 13 :: 10 :: rest)) ((0 : Int) + 1)
      (((1 + p.length : Nat)) : Int) = p := by
    have h := pySlice_middle [45] p (13 :: 10 :: rest)
    rw [e1, e2] at h
    rw [hshape]
    exact h
  rw [show _parse (f + 1) = parseStep (_parse f) from rfl]
  unfold parseStep
  rw [if_neg hlen, hidx]
  simp only [ebind_ok, hfind, hslice]
  norm_num

/-- Decoding `$<L>\r\n<body>` at offset 0 for a non-negative declared
length `L`: the decoder slices `body[0:L]` with no bounds check (Python
slicing silently truncates) and returns the offset
`1 + |digits| + 2 + L + 2` whether or not that many bytes exist. -/
theorem parse_bulk_at0 (L : Nat) (body : List Nat) (f : Nat) :
    _parse (f + 1) (36 :: (natDecimal L ++ 13 :: 10 :: body)) 0 =
      pyDecodeUtf8 (body.take L) >>= fun s =>
        .ok (.vStr s,
          (((1 + (natDecimal L).length : Nat)) : Int) + 2 + (L : Int) + 2) := by
  have hshape : (36 :: (natDecimal L ++ 13 :: 10 :: body)) =
      [36] ++ natDecimal L ++ 13 :: 10 :: body := by
    simp
  have hshape3 : (36 :: (natDecimal L ++ 13 :: 10 :: body)) =
      (36 :: natDecimal L ++ [13, 10]) ++ body := by
    simp
  have hlen : ¬ (((36 :: (natDecimal L ++ 13 :: 10 :: body)).length : Int) ≤ (0 : Int)) := by
    simp only [List.length_cons]
    push_cast
    omega
  have hidx : pyIndexByte (36 :: (natDecimal L ++ 13 :: 10 :: body)) 0 = .ok 36 := rfl
  have e1 : ((([36] : List Nat)).length : Int) = (0 : Int) + 1 := by simp
  have e2 : ([36] : List Nat).length + (natDecimal L).length =
      1 + (natDecimal L).length := by simp
  have hfind : pyFindCRLF (36 :: (natDecimal L ++ 13 :: 10 :: body)) ((0 : Int) + 1) =
      .ok (((1 + (natDecimal L).length : Nat)) : Int) := by
    have h := pyFindCRLF_at [36] (natDecimal L) body (natDecimal_crlfFree L)
    rw [e1, e2] at h
    rw [hshape]
    exact h
  have hslice1 : pySlice (36 :: (natDecimal L ++ 13 :: 10 :: body)) ((0 : Int) + 1)
      (((1 + (natDecimal L).length : Nat)) : Int) = natDecimal L := by
    have h := pySlice_middle [36] (natDecimal L) (13 :: 10 :: body)
    rw [e1, e2] at h
    rw [hshape]
    exact h
  have hneg : ¬ ((L : Int) = -1) := by omega
  have e3 : (((1 + (natDecimal L).length : Nat)) : Int) + 2 =
      (((36 :: natDecimal L ++ [13, 10]).length : Nat) : Int) := by
    simp only [List.length_append, List.length_cons, List.length_nil]
    push_cast
    ring
  have hslice2 : pySlice (36 :: (natDecimal L ++ 13 :: 10 :: body))
      ((((1 + (natDecimal L).length : Nat)) : Int) + 2)
      ((((1 + (natDecimal L).length : Nat)) : Int) + 2 + (L : Int)) = body.take L := by
    rw [e3, hshape3]
    exact pySlice_suffix (36 :: natDecimal L ++ [13, 10]) body L
  rw [show _parse (f + 1) = parseStep (_parse f) from rfl]
  unfold parseStep
  rw [if_neg hlen, hidx]
  simp only [ebind_ok, hfind, hslice1, pyInt_natDecimal]
  rw [if_neg hneg, hslice2]
  norm_num

/-- C2 amended: for every well-formed error frame whose text is valid
UTF-8, decoding raises `RuntimeError` carrying the decoded text — the
frame is signalled by exception, not returned as a tagged value — and
the public entry point `parse_redis_response` re-raises it wrapped as a
parse failure (`ValueError("解析失败: ...")`). -/
theorem c2_error_frame_raises (msg cps : List Nat) (f : Nat)
    (hfree : crlfFree msg = true) (hdec : utf8Decode msg = some cps) :
    _parse (f + 1) (45 :: (msg ++ [13, 10])) 0 = .error (.redisError cps) ∧
    parse_redis_response (45 :: (msg ++ [13, 10])) =
      .error (.parseFailure (.redisError cps)) := by
  have hpd : pyDecodeUtf8 msg = .ok cps := by
    simp [pyDecodeUtf8, hdec]
  have main : ∀ g : Nat, _parse (g + 1) (45 :: (msg ++ [13, 10])) 0 =
      .error (.redisError cps) := by
    intro g
    rw [parse_error_at0 msg [] g hfree, hpd, ebind_ok]
  refine ⟨main f, ?_⟩
  unfold parse_redis_response
  rw [show recursionLimit = 999 + 1 from by norm_num [recursionLimit], main 999]

/-- C2 witness: the error frame `-ERR\r\n` raises `RuntimeError` with
text `ERR`, surfaced by the entry point as a parse failure. -/
theorem c2_error_frame_raises_witness :
    _parse 1000 (45 :: ([69, 82, 82] ++ [13, 10])) 0 =
      .error (.redisError [69, 82, 82]) ∧
    parse_redis_response (45 :: ([69, 82, 82] ++ [13, 10])) =
      .error (.parseFailure (.redisError [69, 82, 82])) :=
  c2_error_frame_raises [69, 82, 82] [69, 82, 82] 999 (by decide) rfl

/-- C5 amended: for a bulk string with non-negative declared length `L`,
the decoder performs no bounds check: it returns the UTF-8 decode of
`body[0:L]` — the bytes that actually remain, silently truncated when
fewer than `L` are present — and always advances by `L + 2` past the
length's terminator; that offset stays within the buffer iff at least
`L + 2` bytes follow the length's terminator, which is the only way a
truncated bulk string is ever noticed (the receive loop's
`idx == len(buffer)` check), never by an incomplete report from the
decoder itself. -/
theorem c5_bulk_no_bounds_check (L : Nat) (body cps : List Nat)
    (hdec : utf8Decode (body.take L) = some cps) :
    _parse recursionLimit (36 :: (natDecimal L ++ 13 :: 10 :: body)) 0 =
      .ok (.vStr cps,
        (((1 + (natDecimal L).length : Nat)) : Int) + 2 + (L : Int) + 2) ∧
    ((((1 + (natDecimal L).length : Nat)) : Int) + 2 + (L : Int) + 2 ≤
        ((36 :: (natDecimal L ++ 13 :: 10 :: body)).length : Int) ↔
      L + 2 ≤ body.length) := by
  have hpd : pyDecodeUtf8 (body.take L) = .ok cps := by
    simp [pyDecodeUtf8, hdec]
  constructor
  · rw [show recursionLimit = 999 + 1 from by norm_num [recursionLimit]]
    rw [parse_bulk_at0 L body 999, hpd, ebind_ok]
  · simp only [List.length_cons, List.length_append]
    push_cast
    omega

/-- C5 witness: `$3\r\nabc\r\n` (complete) decodes to `abc` with the
offset landing exactly at the buffer end; the truncation hypothesis is
discharged concretely. -/
theorem c5_bulk_no_bounds_check_witness :
    _parse recursionLimit (36 :: (natDecimal 3 ++ 13 :: 10 :: [97, 98, 99, 13, 10])) 0 =
      .ok (.vStr [97, 98, 99],
        (((1 + (natDecimal 3).length : Nat)) : Int) + 2 + (3 : Int) + 2) ∧
    ((((1 + (natDecimal 3).length : Nat)) : Int) + 2 + (3 : Int) + 2 ≤
        ((36 :: (natDecimal 3 ++ 13 :: 10 :: [97, 98, 99, 13, 10])).length : Int) ↔
      3 + 2 ≤ [97, 98, 99, 13, 10].length) :=
  c5_bulk_no_bounds_check 3 [97, 98, 99, 13, 10] [97, 98, 99] rfl

/-- C6 amended: whenever `offset ≥ len(buffer)` the decoder returns the
ordinary value `None` with the offset unchanged — not a distinct
incomplete outcome — and through the public entry point (which drops
the offset) an empty buffer is indistinguishable from decoding the nil
bulk string `$-1\r\n`. -/
theorem c6_offset_past_end_returns_none (buffer : List Nat) (idx : Int) (f : Nat)
    (h : (buffer.length : Int) ≤ idx) :
    _parse (f + 1) buffer idx = .ok (.vNone, idx) ∧
    parse_redis_response [] = parse_redis_response [36, 45, 49, 13, 10] := by
  constructor
  · rw [show _parse (f + 1) = parseStep (_parse f) from rfl]
    unfold parseStep
    rw [if_pos h]
  · rfl

/-- C6 witness: at offset 3 of a 3-byte buffer the decoder returns
`(None, 3)`. -/
theorem c6_offset_past_end_returns_none_witness :
    _parse 1000 [43, 79, 75] 3 = .ok (.vNone, 3) ∧
    parse_redis_response [] = parse_redis_response [36, 45, 49, 13, 10] :=
  c6_offset_past_end_returns_none [43, 79, 75] 3 999 (by decide)

/-- C10: for every frame whose payload bytes are not valid UTF-8 the
decoder raises `UnicodeDecodeError`, surfaced by the public entry point
as a parse failure, even though the frame is well-formed on the wire:
both for a simple string `+<p>\r\n` (with `p` terminator-free, as the
wire grammar requires) and for a bulk string `$<len(p)>\r\n<p>\r\n`. -/
theorem c10_invalid_utf8_is_parse_failure (p : List Nat)
    (hfree : crlfFree p = true) (hbad : utf8Decode p = none) :
    _parse recursionLimit (43 :: (p ++ [13, 10])) 0 = .error .unicodeError ∧
    parse_redis_response (43 :: (p ++ [13, 10])) =
      .error (.parseFailure .unicodeError) ∧
    _parse recursionLimit (36 :: (natDecimal p.length ++ 13 :: 10 :: (p ++ [13, 10]))) 0 =
      .error .unicodeError ∧
    parse_redis_response (36 :: (natDecimal p.length ++ 13 :: 10 :: (p ++ [13, 10]))) =
      .error (.parseFailure .unicodeError) := by
  have hpd : pyDecodeUtf8 p = .error .unicodeError := by
    simp [pyDecodeUtf8, hbad]
  have htake : (p ++ [13, 10]).take p.length = p := List.take_left p [13, 10]
  have hsimple : ∀ g : Nat, _parse (g + 1) (43 :: (p ++ [13, 10])) 0 =
      .error .unicodeError := by
    intro g
    rw [parse_simple_at0 p [] g hfree, hpd, ebind_error]
  have hbulk : ∀ g : Nat,
      _parse (g + 1) (36 :: (natDecimal p.length ++ 13 :: 10 :: (p ++ [13, 10]))) 0 =
      .error .unicodeError := by
    intro g
    rw [parse_bulk_at0 p.length (p ++ [13, 10]) g, htake, hpd, ebind_error]
  refine ⟨by rw [show recursionLimit = 999 + 1 from by norm_num [recursionLimit]]
             exact hsimple 999, ?_, ?_, ?_⟩
  · unfold parse_redis_response
    rw [show recursionLimit = 999 + 1 from by norm_num [recursionLimit], hsimple 999]
  · rw [show recursionLimit = 999 + 1 from by norm_num [recursionLimit]]
    exact hbulk 999
  · unfold parse_redis_response
    rw [show recursionLimit = 999 + 1 from by norm_num [recursionLimit], hbulk 999]

/-- C10 witness: the byte 255 is not valid UTF-8; both framings of it
fail to decode and surface as parse failures. -/
theorem c10_invalid_utf8_is_parse_failure_witness :
    _parse recursionLimit (43 :: ([255] ++ [13, 10])) 0 = .error .unicodeError ∧
    parse_redis_response (43 :: ([255] ++ [13, 10])) =
      .error (.parseFailure .unicodeError) ∧
    _parse recursionLimit
      (36 :: (natDecimal [255].length ++ 13 :: 10 :: ([255] ++ [13, 10]))) 0 =
      .error .unicodeError ∧
    parse_redis_response
      (36 :: (natDecimal [255].length ++ 13 :: 10 :: ([255] ++ [13, 10]))) =
      .error (.parseFailure .unicodeError) :=
  c10_invalid_utf8_is_parse_failure [255] (by decide) rfl

/-- The receive loop appends a nonempty chunk and, when the trial parse
raises any exception, swallows it (bare `except`) and keeps reading. -/
theorem recvLoop_error_step (buf c : List Nat) (rest : List (List Nat))
    (exc : ParseExc) (hc : ¬ c = [])
    (herr : _parse recursionLimit (buf ++ c) 0 = .error exc) :
    recvLoop (c :: rest) buf = recvLoop rest (buf ++ c) := by
  simp only [recvLoop, if_neg hc, herr]

/-- A zero-byte read (peer close) breaks out of the receive loop
immediately, whatever the buffer holds. -/
theorem recvLoop_close (buf : List Nat) (rest : List (List Nat)) :
    recvLoop ([] :: rest) buf = .finished buf := by
  simp [recvLoop]

/-- C7 amended: when a decode attempt on the accumulated buffer raises a
protocol error (unknown marker byte or non-numeric length field), the
receive loop does not abort: the bare `except` swallows the exception
and the loop keeps reading the next chunk; the error can only surface
later, through the final parse after the peer closes. -/
theorem c7_loop_swallows_protocol_errors (buf c : List Nat)
    (rest : List (List Nat)) (exc : ParseExc) (b : Nat) (hc : ¬ c = [])
    (hexc : exc = ParseExc.unknownMarker b ∨ exc = ParseExc.intParseError)
    (herr : _parse recursionLimit (buf ++ c) 0 = .error exc) :
    recvLoop (c :: rest) buf = recvLoop rest (buf ++ c) :=
  recvLoop_error_step buf c rest exc hc herr

/-- C7 witness: after the chunk `?\r\n` raises the unknown-marker
protocol error, the loop continues into the next chunk. -/
theorem c7_loop_swallows_protocol_errors_witness :
    recvLoop [[63, 13, 10], [43, 79, 75, 13, 10]] [] =
      recvLoop [[43, 79, 75, 13, 10]] ([] ++ [63, 13, 10]) :=
  c7_loop_swallows_protocol_errors [] [63, 13, 10] [[43, 79, 75, 13, 10]]
    (.unknownMarker 63) 63 (by decide) (Or.inl rfl) rfl

/-- C8 amended: when the peer closes (a zero-byte read) while the
accumulated buffer is still incomplete, the loop just breaks out — no
distinct connection-closed failure exists — and the caller gets
whatever the final parse of the partial buffer produces: a generic
wrapped parse failure for an undecodable buffer such as `+OK` with no
terminator (and even a successful `None` for an empty buffer). -/
theorem c8_close_breaks_and_parses (buf : List Nat) (rest : List (List Nat)) :
    recvLoop ([] :: rest) buf = .finished buf ∧
    send_redis_command ([43, 79, 75] :: [] :: rest) =
      .response (.error (.parseFailure .indexNotFound)) := by
  refine ⟨recvLoop_close buf rest, ?_⟩
  unfold send_redis_command
  have h1 : recvLoop ([43, 79, 75] :: [] :: rest) [] =
      recvLoop ([] :: rest) ([] ++ [43, 79, 75]) :=
    recvLoop_error_step [] [43, 79, 75] ([] :: rest) .indexNotFound (by decide) rfl
  rw [h1, show ([] : List Nat) ++ [43, 79, 75] = [43, 79, 75] from rfl,
    recvLoop_close]
  rfl

/-- C1: on the buffer `*2\r\n$1\r\na\r\n` (array declares 2 elements, only
one present) the decoder does NOT report an incomplete decode: `_parse`
returns the partially-filled array `["a", None]` with consumed offset 11,
the full buffer length, and `parse_redis_response` returns that partial
array as a successful value — so the receive loop's completeness check
(`idx == len(buffer)`) also accepts it as a finished response. -/
theorem c1_truncated_array_returns_partial_array :
    _parse recursionLimit [42, 50, 13, 10, 36, 49, 13, 10, 97, 13, 10] 0 =
      .ok (.vList [.vStr [97], .vNone], 11) ∧
    parse_redis_response [42, 50, 13, 10, 36, 49, 13, 10, 97, 13, 10] =
      .ok (.vList [.vStr [97], .vNone]) :=
  ⟨rfl, rfl⟩

/-- C2 counterexample: on the well-formed error frame
`-ERR unknown command\r\n` the decoder does not succeed with an
error-tagged value: `_parse` raises `RuntimeError` (modelled
`.redisError`), and the public entry point `parse_redis_response`
re-raises it as a parse failure (`ValueError("解析失败: ...")`). -/
theorem c2_error_frame_counterexample :
    _parse recursionLimit
        ([45] ++ [69, 82, 82, 32, 117, 110, 107, 110, 111, 119, 110, 32,
          99, 111, 109, 109, 97, 110, 100] ++ [13, 10]) 0 =
      .error (.redisError [69, 82, 82, 32, 117, 110, 107, 110, 111, 119,
        110, 32, 99, 111, 109, 109, 97, 110, 100]) ∧
    parse_redis_response
        ([45] ++ [69, 82, 82, 32, 117, 110, 107, 110, 111, 119, 110, 32,
          99, 111, 109, 109, 97, 110, 100] ++ [13, 10]) =
      .error (.parseFailure (.redisError [69, 82, 82, 32, 117, 110, 107,
        110, 111, 119, 110, 32, 99, 111, 109, 109, 97, 110, 100])) :=
  ⟨rfl, rfl⟩

/-- C3 counterexample: encoding command `set` (lowercase) with argument
`x` and decoding the result yields `["SET", "x"]`, not `["set", "x"]`:
the encoder uppercases the command, so the round trip is not the
identity on the command's case. -/
theorem c3_roundtrip_counterexample :
    parse_redis_response (build_resp_command [115, 101, 116] [[120]]) =
      .ok (.vList [.vStr [83, 69, 84], .vStr [120]]) ∧
    PyVal.vStr [83, 69, 84] ≠ PyVal.vStr [115, 101, 116] :=
  ⟨rfl, by intro h; injection h with h2; exact absurd h2 (by decide)⟩

/-- C4: the encoder's bulk-string length prefix is the argument's
CHARACTER count, not its UTF-8 byte length: encoding `get` with the
single argument `é` (code point 233, two bytes in UTF-8) produces a
frame declaring `$1` followed by the two payload bytes 195, 169 — and
the decoder rejects the encoder's own output with a Unicode decode
error, because reading 1 byte splits the two-byte sequence. -/
theorem c4_length_is_char_count_not_bytes :
    build_resp_command [103, 101, 116] [[233]] =
      [42, 50, 13, 10, 36, 51, 13, 10, 71, 69, 84, 13, 10, 36, 49, 13, 10,
        195, 169, 13, 10] ∧
    (utf8Encode [233]).length = 2 ∧
    parse_redis_response [42, 50, 13, 10, 36, 51, 13, 10, 71, 69, 84, 13,
        10, 36, 49, 13, 10, 195, 169, 13, 10] =
      .error (.parseFailure .unicodeError) :=
  ⟨rfl, rfl, rfl⟩

/-- C5 counterexample: decoding `$3\r\nab` (declared length 3, only 2
payload bytes present, fewer than `3 + 2` bytes after the length's
terminator) does not report an incomplete decode: it returns the
shortened 2-byte payload `ab` with offset 9, past the 6-byte buffer. -/
theorem c5_truncated_bulk_counterexample :
    _parse recursionLimit [36, 51, 13, 10, 97, 98] 0 = .ok (.vStr [97, 98], 9) ∧
    ([97, 98] : List Nat).length ≠ 3 :=
  ⟨rfl, by decide⟩

/-- C6 counterexample: at `offset ≥ len(buffer)` the decoder returns the
value `None` with the offset unchanged — not a distinct incomplete
outcome: through `parse_redis_response`, which discards the offset, an
empty buffer is indistinguishable from the nil bulk string `$-1\r\n`. -/
theorem c6_incomplete_counterexample :
    _parse recursionLimit [] 0 = .ok (.vNone, 0) ∧
    parse_redis_response [] = .ok .vNone ∧
    parse_redis_response [36, 45, 49, 13, 10] = .ok .vNone :=
  ⟨rfl, rfl, rfl⟩

/-- C7 counterexample: after receiving the chunk `?\r\n` — whose decode
raises the unknown-marker `ValueError` (a protocol error) — the receive
loop does not abort: it swallows the exception, keeps reading, appends
the next chunk `+OK\r\n` to the buffer, and (the peer never closing)
ends in the socket-timeout error rather than reporting the protocol
error. -/
theorem c7_loop_continues_after_bad_marker :
    recvLoop [[63, 13, 10], [43, 79, 75, 13, 10]] [] =
      .starved [63, 13, 10, 43, 79, 75, 13, 10] ∧
    send_redis_command [[63, 13, 10], [43, 79, 75, 13, 10]] = .timeoutError :=
  ⟨rfl, rfl⟩

/-- C8 counterexample: when the peer closes immediately (first `recv`
returns zero bytes) while the empty accumulated buffer is still
incomplete, `send_redis_command` does not report a distinct
connection-closed failure: it returns the Frame `None` — the same value
a nil bulk-string response produces. -/
theorem c8_close_yields_frame_counterexample :
    send_redis_command [[]] = .response (.ok .vNone) := rfl

/-- C9: `$-1\r\n` decodes to the nil bulk string (`None`) at consumed
offset 5, distinct from `$0\r\n\r\n`, which decodes to a present,
zero-length string at offset 6. -/
theorem c9_nil_bulk_distinct_from_empty :
    _parse recursionLimit [36, 45, 49, 13, 10] 0 = .ok (.vNone, 5) ∧
    _parse recursionLimit [36, 48, 13, 10, 13, 10] 0 = .ok (.vStr [], 6) ∧
    PyVal.vNone ≠ PyVal.vStr [] :=
  ⟨rfl, rfl, fun h => PyVal.noConfusion h⟩

end RedisClient
